import Mathlib

set_option maxRecDepth 10000

/-!
Shallow embedding of the wall_e_control serial actuator bridge, from
ros2_arduino_bridge.py and servo_control_ui.py. Serial and process side
effects are modelled as explicit event traces, Python dicts as association
lists in insertion order, Python floats as rationals, and the Python int
conversion as truncation toward zero.
-/

/-- Observable effects on the serial link and the process, in order. -/
inductive Ev where
  | openSerial
  | write (s : String)
  | writeFail (s : String)
  | flush
  | resetInput
  | resetOutput
  | readLine
  | sleep (ms : Nat)
  | log (s : String)
  | logError (s : String)
  | close
  | superDestroy
  | rclpyShutdown
  deriving DecidableEq, Repr

/-- Outcome of a dispatcher call: normal completion or a caught SerialError. -/
inductive CmdResult where
  | ok
  | commandFailed
  deriving DecidableEq, Repr

/-- Behaviour of the underlying serial device during a call: whether writes
succeed, and whether echo bytes are pending when in_waiting is polled. -/
structure SerialLink where
  writeOk : Bool
  inWaiting : Bool
  deriving DecidableEq, Repr

/-- A healthy link with no pending echo bytes. -/
def okLink : SerialLink := ⟨true, false⟩

/-- A link whose write calls raise SerialException. -/
def failLink : SerialLink := ⟨false, false⟩

/-- Python int() applied to a rational: truncation toward zero. -/
def pyInt (q : ℚ) : ℤ := q.num.tdiv (q.den : ℤ)

/-- The clamp in cmd_vel_callback: max(-100, min(100, n)). -/
def clamp100 (n : ℤ) : ℤ := max (-100) (min 100 n)

/-- linear = max(-100, min(100, int(v * max_speed))), from cmd_vel_callback. -/
def scaled_clamped (v : ℚ) (maxSpeed : ℤ) : ℤ := clamp100 (pyInt (v * (maxSpeed : ℚ)))

/-- Wire bytes of one command, as a character list: the command symbol, the
decimal representation of the value, and a newline.  This is the f-string
used by both send_servo_command and cmd_vel_callback. -/
def encodeChars (symbol : Char) (value : ℤ) : List Char :=
  symbol :: (toString value).data ++ ['\n']

/-- Wire bytes of one command, as a string. -/
def encodeCmd (symbol : Char) (value : ℤ) : String :=
  String.mk (encodeChars symbol value)

/-- Numeric value of an ASCII digit. -/
def digitVal (c : Char) : ℕ := c.toNat - 48

/-- Reference parse of a nonempty all-digit character list as a natural. -/
def parseNatDigits (cs : List Char) : Option ℕ :=
  if cs = [] then none
  else if cs.all Char.isDigit then
    some (cs.foldl (fun acc c => 10 * acc + digitVal c) 0)
  else none

/-- Reference parse of an optionally minus-signed decimal integer. -/
def parseIntChars : List Char → Option ℤ
  | '-' :: cs => (parseNatDigits cs).map (fun n => -(n : ℤ))
  | cs => (parseNatDigits cs).map (fun n => (n : ℤ))

/-- Reference decode of one wire line: first byte is the command symbol, the
rest up to a single trailing newline is the decimal value. -/
def decodeWire (cs : List Char) : Option (Char × ℤ) :=
  match cs with
  | [] => none
  | c :: rest =>
    if rest.getLast? = some '\n' then
      (parseIntChars rest.dropLast).map (fun v => (c, v))
    else none

/-- The fixed command table of the wire protocol: symbol, low bound, high
bound, as documented for the Arduino sketch. -/
def commandTable : List (Char × ℤ × ℤ) :=
  [('Y', -100, 100), ('X', -100, 100), ('G', 0, 100), ('T', 0, 100),
   ('B', 0, 100), ('U', 0, 100), ('E', 0, 100), ('L', 0, 100), ('R', 0, 100)]

/-- All integers from lo to hi inclusive. -/
def rangeValues (lo hi : ℤ) : List ℤ :=
  (List.range (hi - lo + 1).toNat).map (fun i : ℕ => lo + (i : ℤ))

/-- Bounded executable round-trip check over the whole command table. -/
def roundTripOK : Bool :=
  commandTable.all (fun entry =>
    (rangeValues entry.2.1 entry.2.2).all (fun v =>
      decide (decodeWire (encodeChars entry.1 v) = some (entry.1, v))))

/-- The serial writes of a trace, in order. -/
def writesOf (t : List Ev) : List String :=
  t.filterMap (fun e => match e with | Ev.write s => some s | _ => none)

/-- Whether an event is a successful serial write. -/
def isWrite : Ev → Bool
  | Ev.write _ => true
  | _ => false

/-- Whether every serial write in the trace is immediately followed by the
10 millisecond inter-command delay. -/
def eachWriteDelayed : List Ev → Bool
  | [] => true
  | [e] => !(isWrite e)
  | e :: e' :: t => (!(isWrite e) || (e' == Ev.sleep 10)) && eachWriteDelayed (e' :: t)

/-- Whether the trace contains any logging call. -/
def hasLog (t : List Ev) : Bool :=
  t.any (fun e => match e with | Ev.log _ => true | Ev.logError _ => true | _ => false)

/-- ArduinoBridge.cmd_vel_callback: scale linear.x and angular.z by
max_speed, truncate with int(), clamp to -100..100, then write the Y
command, sleep 0.01 s, write the X command, and log.  A SerialException
from a write is caught and logged; the device-level flag writeOk selects
which branch runs. -/
def cmd_vel_callback (link : SerialLink) (maxSpeed : ℤ) (lx az : ℚ) : List Ev :=
  let l := scaled_clamped lx maxSpeed
  let a := scaled_clamped az maxSpeed
  if link.writeOk then
    [Ev.write (encodeCmd 'Y' l), Ev.sleep 10, Ev.write (encodeCmd 'X' a), Ev.log "Sent"]
  else
    [Ev.writeFail (encodeCmd 'Y' l), Ev.logError "Serial write error"]

/-- ArduinoBridge init on the success path: open the port, sleep 2 s for
the Arduino reset, log.  Note there is no buffer reset here. -/
def bridge_init_events : List Ev :=
  [Ev.openSerial, Ev.sleep 2000, Ev.log "Connected"]

/-- ArduinoBridge.destroy_node: try writing Y0 then X0 then closing the
port; a bare except swallows any exception, then super().destroy_node()
runs.  When the first write raises, the close call is never reached. -/
def destroy_node (writeOk : Bool) : List Ev :=
  if writeOk then
    [Ev.write (encodeCmd 'Y' 0), Ev.write (encodeCmd 'X' 0), Ev.close, Ev.superDestroy]
  else
    [Ev.writeFail (encodeCmd 'Y' 0), Ev.superDestroy]

/-- How rclpy.spin ends in the bridge main function: KeyboardInterrupt
(caught and passed) or another exception (caught and printed). -/
inductive SpinEnd where
  | interrupted
  | errored
  deriving DecidableEq, Repr

/-- The cmd_vel callbacks processed while spinning, on a healthy link. -/
def spin_events (maxSpeed : ℤ) (msgs : List (ℚ × ℚ)) : List Ev :=
  msgs.foldr (fun m acc => cmd_vel_callback okLink maxSpeed m.1 m.2 ++ acc) []

/-- The bridge main function after a successful node construction: spin
until interrupted or errored, then the finally block runs rclpy.shutdown.
No path invokes node.destroy_node(). -/
def bridge_main_events (maxSpeed : ℤ) (msgs : List (ℚ × ℚ)) : SpinEnd → List Ev
  | SpinEnd.interrupted =>
      bridge_init_events ++ spin_events maxSpeed msgs ++ [Ev.rclpyShutdown]
  | SpinEnd.errored =>
      bridge_init_events ++ spin_events maxSpeed msgs
        ++ [Ev.log "Error", Ev.rclpyShutdown]

/-- The positions dict of ServoKeyboard: an association list in insertion
order, values Python ints. -/
abbrev Positions := List (String × ℤ)

/-- The mutable state of the ServoKeyboard object that the key loop uses. -/
structure UIState where
  positions : Positions
  current_servo : String
  deriving DecidableEq, Repr

/-- Python dict assignment d[k] = v: overwrite an existing key in place,
append a fresh key at the end. -/
def setKey (ps : Positions) (k : String) (v : ℤ) : Positions :=
  if (ps.lookup k).isSome then
    ps.map (fun p => if p.1 = k then (k, v) else p)
  else
    ps ++ [(k, v)]

/-- The servo_commands dict: actuator name to command symbol. -/
def servo_commands : List (String × Char) :=
  [("head_rotation", 'G'), ("neck_top", 'T'), ("neck_bottom", 'B'),
   ("eye_right", 'U'), ("eye_left", 'E'), ("arm_left", 'L'), ("arm_right", 'R')]

/-- The positions dict as initialised in ServoKeyboard init: all 50. -/
def initPositions : Positions :=
  [("head_rotation", 50), ("neck_top", 50), ("neck_bottom", 50),
   ("eye_right", 50), ("eye_left", 50), ("arm_left", 50), ("arm_right", 50)]

/-- The UI state right after init: current_servo is head_rotation. -/
def uiInit : UIState := ⟨initPositions, "head_rotation"⟩

/-- self.step_size in ServoKeyboard init. -/
def step_size : ℤ := 5

/-- ServoKeyboard.send_servo_command: look up the command character and the
stored position (a missing key would raise, modelled as none), then inside
a try block reset the input buffer, log, write, flush, sleep 0.05 s, read a
pending echo line, and log the status; a SerialException from the write is
caught and logged, surfacing as commandFailed.  The positions dict is
never touched here. -/
def send_servo_command (link : SerialLink) (ps : Positions) (name : String) :
    Option (List Ev × CmdResult) :=
  match servo_commands.lookup name, ps.lookup name with
  | some c, some p =>
    let cmd := encodeCmd c p
    if link.writeOk then
      some ([Ev.resetInput, Ev.log "Sending", Ev.write cmd, Ev.flush, Ev.sleep 50]
        ++ (if link.inWaiting then [Ev.readLine, Ev.log "Arduino"] else [])
        ++ [Ev.log "status"], CmdResult.ok)
    else
      some ([Ev.resetInput, Ev.log "Sending", Ev.writeFail cmd, Ev.logError "Serial error"],
        CmdResult.commandFailed)
  | _, _ => none

/-- The shared shape of the position-changing key handlers in
ServoKeyboard.run: store the new value for the current servo, then call
send_servo_command on it. -/
def sendAfterSet (link : SerialLink) (st : UIState) (v : ℤ) : Option (UIState × List Ev) :=
  match send_servo_command link (setKey st.positions st.current_servo v) st.current_servo with
  | some r => some (⟨setKey st.positions st.current_servo v, st.current_servo⟩, r.1)
  | none => none

/-- One loop iteration of ServoKeyboard.center_all_servos: store 50 for
this servo, send, and sleep 0.15 s. -/
def center_step (link : SerialLink) (acc : Positions × List Ev) (name : String) :
    Option (Positions × List Ev) :=
  match send_servo_command link (setKey acc.1 name 50) name with
  | some r => some (setKey acc.1 name 50, acc.2 ++ r.1 ++ [Ev.sleep 150])
  | none => none

/-- ServoKeyboard.center_all_servos: for each key of the positions dict in
order, store 50, send, and sleep 0.15 s. -/
def center_all_servos (link : SerialLink) (ps : Positions) : Option (Positions × List Ev) :=
  (ps.map Prod.fst).foldlM (center_step link) (ps, [])

/-- The home_positions dict literal in ServoKeyboard.home_position. -/
def home_positions : Positions :=
  [("head_rotation", 50), ("neck_top", 80), ("neck_bottom", 20),
   ("eye_right", 40), ("eye_left", 40), ("arm_left", 50), ("arm_right", 50)]

/-- One loop iteration of ServoKeyboard.home_position: store the home
value for this servo, send, and sleep 0.15 s. -/
def home_step (link : SerialLink) (acc : Positions × List Ev) (entry : String × ℤ) :
    Option (Positions × List Ev) :=
  match send_servo_command link (setKey acc.1 entry.1 entry.2) entry.1 with
  | some r => some (setKey acc.1 entry.1 entry.2, acc.2 ++ r.1 ++ [Ev.sleep 150])
  | none => none

/-- ServoKeyboard.home_position: for each entry of home_positions in
declaration order, store the value, send, and sleep 0.15 s. -/
def home_position (link : SerialLink) (ps : Positions) : Option (Positions × List Ev) :=
  home_positions.foldlM (home_step link) (ps, [])

/-- One iteration of the key dispatch in ServoKeyboard.run.  Keys 1 to 7
select the servo at that index of the positions key list (an out of range
index would raise, modelled as none); w, s, plus and minus keys clamp and
store a new position and send it; 0 centers all; h applies the home
preset; r stores 50 and sends; every other key leaves the state alone. -/
def run_key (link : SerialLink) (st : UIState) (key : Char) : Option (UIState × List Ev) :=
  if key ∈ ['1', '2', '3', '4', '5', '6', '7'] then
    match (st.positions.map Prod.fst)[key.toNat - 49]? with
    | some name => some (⟨st.positions, name⟩, [])
    | none => none
  else if key = 'w' then
    match st.positions.lookup st.current_servo with
    | some p => sendAfterSet link st (min 100 (p + step_size))
    | none => none
  else if key = 's' then
    match st.positions.lookup st.current_servo with
    | some p => sendAfterSet link st (max 0 (p - step_size))
    | none => none
  else if key ∈ ['+', '=', ']'] then
    match st.positions.lookup st.current_servo with
    | some p => sendAfterSet link st (min 100 (p + 1))
    | none => none
  else if key ∈ ['-', '_', '['] then
    match st.positions.lookup st.current_servo with
    | some p => sendAfterSet link st (max 0 (p - 1))
    | none => none
  else if key = '0' then
    match center_all_servos link st.positions with
    | some r => some (⟨r.1, st.current_servo⟩, r.2)
    | none => none
  else if key = 'h' then
    match home_position link st.positions with
    | some r => some (⟨r.1, st.current_servo⟩, r.2)
    | none => none
  else if key = 'r' then
    sendAfterSet link st 50
  else
    some (st, [])

/-- Iterated key handling, keeping only the state. -/
def runKeys (link : SerialLink) (st : UIState) (keys : List Char) : Option UIState :=
  keys.foldlM (fun s k => (run_key link s k).map Prod.fst) st

/-- The stored head_rotation position after n presses of one key from the
initial state, on a healthy link. -/
def stepRunPos (k : Char) (n : ℕ) : Option (Option ℤ) :=
  (runKeys okLink uiInit (List.replicate n k)).map
    (fun st => st.positions.lookup "head_rotation")

/-- ServoKeyboard init on the success path: open, sleep 2 s, reset both
buffers, log, then test_connection writes G50, flushes, sleeps 0.2 s and
polls for an echo. -/
def servo_ui_init_events (inWaiting : Bool) : List Ev :=
  [Ev.openSerial, Ev.sleep 2000, Ev.resetInput, Ev.resetOutput, Ev.log "Connected",
   Ev.log "Testing", Ev.write (encodeCmd 'G' 50), Ev.flush, Ev.sleep 200]
  ++ (if inWaiting then [Ev.readLine, Ev.log "Arduino echo"] else [Ev.logError "No response"])

/-- The declared key order of the positions and servo_commands dicts. -/
def actuatorNames : List String :=
  ["head_rotation", "neck_top", "neck_bottom", "eye_right", "eye_left",
   "arm_left", "arm_right"]

/-- All stored servo positions lie in 0..100. -/
abbrev inRange01 (ps : Positions) : Prop := ∀ p ∈ ps, 0 ≤ p.2 ∧ p.2 ≤ 100

/-- The reachable-state invariant of the key loop: the positions dict has
exactly the declared keys in order, the current servo is one of them, and
every stored position is in 0..100. -/
abbrev uiInvariant (st : UIState) : Prop :=
  st.positions.map Prod.fst = actuatorNames ∧
  st.current_servo ∈ actuatorNames ∧
  inRange01 st.positions

/-! Helper lemmas about association list lookup and Python dict assignment. -/

/-- Helper: a lookup succeeds exactly when the key occurs in the key list. -/
theorem lookup_isSome_iff (ps : Positions) (k : String) :
    (ps.lookup k).isSome ↔ k ∈ ps.map Prod.fst := by
  induction ps with
  | nil => simp
  | cons p t ih =>
    obtain ⟨k1, v1⟩ := p
    by_cases hk : k = k1
    · subst hk
      simp [List.lookup_cons]
    · have hne : (k == k1) = false := beq_eq_false_iff_ne.mpr hk
      simp [List.lookup_cons, hne, hk, ih]

/-- Helper: a successful lookup returns a stored pair of the list. -/
theorem mem_of_lookup_eq_some (ps : Positions) (k : String) (v : ℤ)
    (h : ps.lookup k = some v) : (k, v) ∈ ps := by
  induction ps with
  | nil => simp at h
  | cons p t ih =>
    obtain ⟨k1, v1⟩ := p
    by_cases hk : k = k1
    · subst hk
      rw [List.lookup_cons] at h
      simp only [beq_self_eq_true] at h
      obtain rfl := Option.some.inj h
      exact List.mem_cons_self _ _
    · have hne : (k == k1) = false := beq_eq_false_iff_ne.mpr hk
      rw [List.lookup_cons, hne] at h
      exact List.mem_cons_of_mem _ (ih h)

/-- Helper: overwriting one key leaves the key list unchanged. -/
theorem keys_map_update (ps : Positions) (k : String) (v : ℤ) :
    (ps.map (fun p => if p.1 = k then (k, v) else p)).map Prod.fst = ps.map Prod.fst := by
  induction ps with
  | nil => rfl
  | cons p t ih =>
    by_cases hk : p.1 = k
    · simp [hk, ih]
    · simp [hk, ih]

/-- Helper: setKey on a present key leaves the key list unchanged. -/
theorem setKey_keys (ps : Positions) (k : String) (v : ℤ) (h : k ∈ ps.map Prod.fst) :
    (setKey ps k v).map Prod.fst = ps.map Prod.fst := by
  unfold setKey
  rw [if_pos ((lookup_isSome_iff ps k).mpr h)]
  exact keys_map_update ps k v

/-- Helper: after overwriting a present key, looking it up gives the new value. -/
theorem lookup_update_self (ps : Positions) (k : String) (v : ℤ) (h : k ∈ ps.map Prod.fst) :
    (ps.map (fun p => if p.1 = k then (k, v) else p)).lookup k = some v := by
  induction ps with
  | nil => simp at h
  | cons p t ih =>
    obtain ⟨k1, v1⟩ := p
    by_cases hk : k1 = k
    · subst hk
      simp [List.lookup_cons]
    · have h' : k ∈ t.map Prod.fst := by
        rw [List.map_cons] at h
        rcases List.mem_cons.mp h with h1 | h1
        · exact absurd h1.symm hk
        · exact h1
      have hne : (k == k1) = false := beq_eq_false_iff_ne.mpr (fun he => hk he.symm)
      simp [hk, List.lookup_cons, hne, ih h']

/-- Helper: after setKey on a present key, looking it up gives the new value. -/
theorem setKey_lookup_self (ps : Positions) (k : String) (v : ℤ) (h : k ∈ ps.map Prod.fst) :
    (setKey ps k v).lookup k = some v := by
  unfold setKey
  rw [if_pos ((lookup_isSome_iff ps k).mpr h)]
  exact lookup_update_self ps k v h

/-- Helper: setKey with an in-range value keeps all stored values in range. -/
theorem inRange01_setKey (ps : Positions) (k : String) (v : ℤ)
    (h : inRange01 ps) (h0 : 0 ≤ v) (h1 : v ≤ 100) : inRange01 (setKey ps k v) := by
  unfold setKey
  split
  · intro p hp
    obtain ⟨q, hq, rfl⟩ := List.mem_map.mp hp
    by_cases hk : q.1 = k
    · simp only [if_pos hk]
      exact ⟨h0, h1⟩
    · simp only [if_neg hk]
      exact h q hq
  · intro p hp
    rcases List.mem_append.mp hp with h' | h'
    · exact h p h'
    · simp only [List.mem_singleton] at h'
      subst h'
      exact ⟨h0, h1⟩

/-- Helper: send_servo_command cannot raise once both lookups succeed; it
returns a result for any link behaviour. -/
theorem send_some (link : SerialLink) (ps : Positions) (name : String)
    (hc : (servo_commands.lookup name).isSome) (hp : (ps.lookup name).isSome) :
    ∃ r, send_servo_command link ps name = some r := by
  obtain ⟨c, hc⟩ := Option.isSome_iff_exists.mp hc
  obtain ⟨p, hp⟩ := Option.isSome_iff_exists.mp hp
  unfold send_servo_command
  rw [hc, hp]
  obtain ⟨wo, iw⟩ := link
  cases wo <;> exact ⟨_, rfl⟩

/-- Helper: the store-then-send pattern stores exactly the requested value
and completes for any link behaviour. -/
theorem sendAfterSet_eq (link : SerialLink) (st : UIState) (v : ℤ)
    (hc : (servo_commands.lookup st.current_servo).isSome)
    (hm : st.current_servo ∈ st.positions.map Prod.fst) :
    ∃ evs, sendAfterSet link st v =
      some (⟨setKey st.positions st.current_servo v, st.current_servo⟩, evs) := by
  have hp : ((setKey st.positions st.current_servo v).lookup st.current_servo).isSome := by
    rw [setKey_lookup_self _ _ _ hm]
    rfl
  obtain ⟨r, hr⟩ := send_some link _ _ hc hp
  unfold sendAfterSet
  rw [hr]
  exact ⟨r.1, rfl⟩

/-- Helper: every command symbol lookup over the declared names succeeds. -/
theorem servo_commands_total : ∀ n ∈ actuatorNames, (servo_commands.lookup n).isSome := by
  decide

/-- Helper: the center loop completes, keeps the key list, and keeps every
stored value in range. -/
theorem center_fold (link : SerialLink) :
    ∀ (names : List String) (ps : Positions) (acc : List Ev),
      (∀ n ∈ names, n ∈ ps.map Prod.fst) →
      (∀ n ∈ names, (servo_commands.lookup n).isSome) →
      inRange01 ps →
      ∃ res, List.foldlM (center_step link) (ps, acc) names = some res ∧
        res.1.map Prod.fst = ps.map Prod.fst ∧ inRange01 res.1 := by
  intro names
  induction names with
  | nil =>
    intro ps acc _ _ hr
    exact ⟨(ps, acc), rfl, rfl, hr⟩
  | cons n t ih =>
    intro ps acc hmem hcmd hr
    have hm : n ∈ ps.map Prod.fst := hmem n (List.mem_cons_self _ _)
    have hp : ((setKey ps n 50).lookup n).isSome := by
      rw [setKey_lookup_self _ _ _ hm]
      rfl
    obtain ⟨r, hsend⟩ := send_some link _ _ (hcmd n (List.mem_cons_self _ _)) hp
    have hkeys : (setKey ps n 50).map Prod.fst = ps.map Prod.fst := setKey_keys _ _ _ hm
    obtain ⟨res, hres, hk2, hr2⟩ := ih (setKey ps n 50) (acc ++ r.1 ++ [Ev.sleep 150])
      (fun m hmm => hkeys ▸ hmem m (List.mem_cons_of_mem _ hmm))
      (fun m hmm => hcmd m (List.mem_cons_of_mem _ hmm))
      (inRange01_setKey _ _ _ hr (by norm_num) (by norm_num))
    have hstep : center_step link (ps, acc) n =
        some (setKey ps n 50, acc ++ r.1 ++ [Ev.sleep 150]) := by
      unfold center_step
      dsimp only
      rw [hsend]
    refine ⟨res, ?_, by rw [hk2, hkeys], hr2⟩
    rw [List.foldlM_cons, hstep]
    simpa using hres

/-- Helper: the home loop completes, keeps the key list, and keeps every
stored value in range. -/
theorem home_fold (link : SerialLink) :
    ∀ (entries : List (String × ℤ)) (ps : Positions) (acc : List Ev),
      (∀ e ∈ entries, e.1 ∈ ps.map Prod.fst) →
      (∀ e ∈ entries, (servo_commands.lookup e.1).isSome) →
      (∀ e ∈ entries, 0 ≤ e.2 ∧ e.2 ≤ 100) →
      inRange01 ps →
      ∃ res, List.foldlM (home_step link) (ps, acc) entries = some res ∧
        res.1.map Prod.fst = ps.map Prod.fst ∧ inRange01 res.1 := by
  intro entries
  induction entries with
  | nil =>
    intro ps acc _ _ _ hr
    exact ⟨(ps, acc), rfl, rfl, hr⟩
  | cons n t ih =>
    intro ps acc hmem hcmd hval hr
    have hm : n.1 ∈ ps.map Prod.fst := hmem n (List.mem_cons_self _ _)
    have hp : ((setKey ps n.1 n.2).lookup n.1).isSome := by
      rw [setKey_lookup_self _ _ _ hm]
      rfl
    obtain ⟨r, hsend⟩ := send_some link _ _ (hcmd n (List.mem_cons_self _ _)) hp
    have hkeys : (setKey ps n.1 n.2).map Prod.fst = ps.map Prod.fst := setKey_keys _ _ _ hm
    obtain ⟨res, hres, hk2, hr2⟩ := ih (setKey ps n.1 n.2) (acc ++ r.1 ++ [Ev.sleep 150])
      (fun m hmm => hkeys ▸ hmem m (List.mem_cons_of_mem _ hmm))
      (fun m hmm => hcmd m (List.mem_cons_of_mem _ hmm))
      (fun m hmm => hval m (List.mem_cons_of_mem _ hmm))
      (inRange01_setKey _ _ _ hr (hval n (List.mem_cons_self _ _)).1
        (hval n (List.mem_cons_self _ _)).2)
    have hstep : home_step link (ps, acc) n =
        some (setKey ps n.1 n.2, acc ++ r.1 ++ [Ev.sleep 150]) := by
      unfold home_step
      dsimp only
      rw [hsend]
    refine ⟨res, ?_, by rw [hk2, hkeys], hr2⟩
    rw [List.foldlM_cons, hstep]
    simpa using hres

/-- Helper: from any state satisfying the loop invariant, every key press
is handled without a missing key or index failure, and the resulting state
satisfies the invariant again. -/
theorem run_key_total_inv (link : SerialLink) (st : UIState) (key : Char)
    (h : uiInvariant st) :
    ∃ r, run_key link st key = some r ∧ uiInvariant r.1 := by
  obtain ⟨hkeys, hcur, hrange⟩ := h
  have hcs : (servo_commands.lookup st.current_servo).isSome :=
    servo_commands_total _ hcur
  have hm : st.current_servo ∈ st.positions.map Prod.fst := by
    rw [hkeys]
    exact hcur
  unfold run_key
  by_cases h1 : key ∈ ['1', '2', '3', '4', '5', '6', '7']
  · rw [if_pos h1, hkeys]
    simp only [List.mem_cons, List.not_mem_nil, or_false] at h1
    rcases h1 with rfl | rfl | rfl | rfl | rfl | rfl | rfl <;>
      exact ⟨_, rfl, hkeys, by dsimp only; decide, hrange⟩
  rw [if_neg h1]
  by_cases h2 : key = 'w'
  · rw [if_pos h2]
    obtain ⟨p, hp⟩ := Option.isSome_iff_exists.mp ((lookup_isSome_iff _ _).mpr hm)
    rw [hp]
    have hpB : 0 ≤ p ∧ p ≤ 100 := hrange _ (mem_of_lookup_eq_some _ _ _ hp)
    show ∃ r, sendAfterSet link st (min 100 (p + step_size)) = some r ∧ uiInvariant r.1
    obtain ⟨evs, he⟩ := sendAfterSet_eq link st (min 100 (p + step_size)) hcs hm
    rw [he]
    refine ⟨_, rfl, ?_, hcur, ?_⟩
    · rw [setKey_keys _ _ _ hm]
      exact hkeys
    · exact inRange01_setKey _ _ _ hrange (by unfold step_size; omega) (by unfold step_size; omega)
  rw [if_neg h2]
  by_cases h3 : key = 's'
  · rw [if_pos h3]
    obtain ⟨p, hp⟩ := Option.isSome_iff_exists.mp ((lookup_isSome_iff _ _).mpr hm)
    rw [hp]
    have hpB : 0 ≤ p ∧ p ≤ 100 := hrange _ (mem_of_lookup_eq_some _ _ _ hp)
    show ∃ r, sendAfterSet link st (max 0 (p - step_size)) = some r ∧ uiInvariant r.1
    obtain ⟨evs, he⟩ := sendAfterSet_eq link st (max 0 (p - step_size)) hcs hm
    rw [he]
    refine ⟨_, rfl, ?_, hcur, ?_⟩
    · rw [setKey_keys _ _ _ hm]
      exact hkeys
    · exact inRange01_setKey _ _ _ hrange (by unfold step_size; omega) (by unfold step_size; omega)
  rw [if_neg h3]
  by_cases h4 : key ∈ ['+', '=', ']']
  · rw [if_pos h4]
    obtain ⟨p, hp⟩ := Option.isSome_iff_exists.mp ((lookup_isSome_iff _ _).mpr hm)
    rw [hp]
    have hpB : 0 ≤ p ∧ p ≤ 100 := hrange _ (mem_of_lookup_eq_some _ _ _ hp)
    show ∃ r, sendAfterSet link st (min 100 (p + 1)) = some r ∧ uiInvariant r.1
    obtain ⟨evs, he⟩ := sendAfterSet_eq link st (min 100 (p + 1)) hcs hm
    rw [he]
    refine ⟨_, rfl, ?_, hcur, ?_⟩
    · rw [setKey_keys _ _ _ hm]
      exact hkeys
    · exact inRange01_setKey _ _ _ hrange (by omega) (by omega)
  rw [if_neg h4]
  by_cases h5 : key ∈ ['-', '_', '[']
  · rw [if_pos h5]
    obtain ⟨p, hp⟩ := Option.isSome_iff_exists.mp ((lookup_isSome_iff _ _).mpr hm)
    rw [hp]
    have hpB : 0 ≤ p ∧ p ≤ 100 := hrange _ (mem_of_lookup_eq_some _ _ _ hp)
    show ∃ r, sendAfterSet link st (max 0 (p - 1)) = some r ∧ uiInvariant r.1
    obtain ⟨evs, he⟩ := sendAfterSet_eq link st (max 0 (p - 1)) hcs hm
    rw [he]
    refine ⟨_, rfl, ?_, hcur, ?_⟩
    · rw [setKey_keys _ _ _ hm]
      exact hkeys
    · exact inRange01_setKey _ _ _ hrange (by omega) (by omega)
  rw [if_neg h5]
  by_cases h6 : key = '0'
  · rw [if_pos h6]
    unfold center_all_servos
    obtain ⟨res, hres, hk2, hr2⟩ := center_fold link (st.positions.map Prod.fst)
      st.positions [] (fun n hn => hn)
      (fun n hn => servo_commands_total n (by rw [hkeys] at hn; exact hn)) hrange
    rw [hres]
    exact ⟨_, rfl, by rw [hk2]; exact hkeys, hcur, hr2⟩
  rw [if_neg h6]
  by_cases h7 : key = 'h'
  · rw [if_pos h7]
    unfold home_position
    obtain ⟨res, hres, hk2, hr2⟩ := home_fold link home_positions st.positions []
      (fun e he => by
        rw [hkeys]
        exact (by decide : ∀ e ∈ home_positions, e.1 ∈ actuatorNames) e he)
      (fun e he => servo_commands_total e.1
        ((by decide : ∀ e ∈ home_positions, e.1 ∈ actuatorNames) e he))
      (by decide) hrange
    rw [hres]
    exact ⟨_, rfl, by rw [hk2]; exact hkeys, hcur, hr2⟩
  rw [if_neg h7]
  by_cases h8 : key = 'r'
  · rw [if_pos h8]
    obtain ⟨evs, he⟩ := sendAfterSet_eq link st 50 hcs hm
    rw [he]
    refine ⟨_, rfl, ?_, hcur, ?_⟩
    · rw [setKey_keys _ _ _ hm]
      exact hkeys
    · exact inRange01_setKey _ _ _ hrange (by omega) (by omega)
  rw [if_neg h8]
  exact ⟨_, rfl, hkeys, hcur, hrange⟩

/-! The claim theorems. -/

/-- Helper: the bounded executable round-trip check evaluates to true. -/
theorem roundTrip_true : roundTripOK = true := by decide

/-- Claim C7: for every command symbol in the fixed table and every integer
value in that actuator's valid range, encoding produces the symbol, the
minimal decimal ASCII representation of the value (minus sign for
negatives, no leading zeros) and a single newline, and the reference
decode of those wire bytes recovers exactly the symbol and the value. -/
theorem C7_roundtrip (c : Char) (lo hi v : ℤ)
    (hmem : (c, lo, hi) ∈ commandTable) (h1 : lo ≤ v) (h2 : v ≤ hi) :
    decodeWire (encodeChars c v) = some (c, v) := by
  have hall := roundTrip_true
  rw [roundTripOK, List.all_eq_true] at hall
  have h3 := hall (c, lo, hi) hmem
  rw [List.all_eq_true] at h3
  have hv : v ∈ rangeValues lo hi := by
    have hmem : (v - lo).toNat ∈ List.range (hi - lo + 1).toNat :=
      List.mem_range.mpr (by omega)
    have heq : lo + ((v - lo).toNat : ℤ) = v := by omega
    unfold rangeValues
    exact List.mem_map.mpr ⟨(v - lo).toNat, hmem, heq⟩
  exact of_decide_eq_true (h3 v hv)

/-- Witness for C7 at the drive symbol Y and the value -25. -/
theorem C7_roundtrip_witness : decodeWire (encodeChars 'Y' (-25)) = some ('Y', -25) :=
  C7_roundtrip 'Y' (-100) 100 (-25) (by decide) (by decide) (by decide)

/-- Claim C9: for every incoming velocity command, even when linear.x or
angular.z lies outside -1..1, both integers written to the serial link are
in -100..100, because the clamp is applied after the scaling and before
the write. -/
theorem C9_clamped_writes : ∀ (maxSpeed : ℤ) (lx az : ℚ),
    (-100 ≤ scaled_clamped lx maxSpeed ∧ scaled_clamped lx maxSpeed ≤ 100) ∧
    (-100 ≤ scaled_clamped az maxSpeed ∧ scaled_clamped az maxSpeed ≤ 100) ∧
    writesOf (cmd_vel_callback okLink maxSpeed lx az) =
      [encodeCmd 'Y' (scaled_clamped lx maxSpeed),
       encodeCmd 'X' (scaled_clamped az maxSpeed)] := by
  intro ms lx az
  refine ⟨⟨?_, ?_⟩, ⟨?_, ?_⟩, rfl⟩ <;> (unfold scaled_clamped clamp100; omega)

/-- Helper: the concrete velocity scalings used by the worked examples. -/
theorem scaled_examples :
    scaled_clamped 1 100 = 100 ∧ scaled_clamped 0 100 = 0 ∧
    scaled_clamped (-(1 : ℚ)/2) 50 = -25 ∧ scaled_clamped ((1 : ℚ)/2) 50 = 25 := by
  refine ⟨?_, ?_, ?_, ?_⟩ <;> norm_num [scaled_clamped, pyInt, clamp100]

/-- Helper: the concrete callback traces of the two worked examples. -/
theorem cmd_vel_trace_examples :
    cmd_vel_callback okLink 100 1 0 =
      [Ev.write (encodeCmd 'Y' 100), Ev.sleep 10, Ev.write (encodeCmd 'X' 0), Ev.log "Sent"] ∧
    cmd_vel_callback okLink 50 (-(1 : ℚ)/2) ((1 : ℚ)/2) =
      [Ev.write (encodeCmd 'Y' (-25)), Ev.sleep 10, Ev.write (encodeCmd 'X' 25),
       Ev.log "Sent"] := by
  obtain ⟨h1, h2, h3, h4⟩ := scaled_examples
  constructor
  · rw [show cmd_vel_callback okLink 100 1 0 =
        [Ev.write (encodeCmd 'Y' (scaled_clamped 1 100)), Ev.sleep 10,
         Ev.write (encodeCmd 'X' (scaled_clamped 0 100)), Ev.log "Sent"] from rfl, h1, h2]
  · rw [show cmd_vel_callback okLink 50 (-(1 : ℚ)/2) ((1 : ℚ)/2) =
        [Ev.write (encodeCmd 'Y' (scaled_clamped (-(1 : ℚ)/2) 50)), Ev.sleep 10,
         Ev.write (encodeCmd 'X' (scaled_clamped ((1 : ℚ)/2) 50)), Ev.log "Sent"] from rfl,
        h3, h4]

/-- Claim C1 is refuted at send_velocity(1.0, 0.0, 100): the handler does
write Y100 then X0 in that order, but only the first write is followed by
the 10 millisecond inter-command delay; no delay follows the X write, so
the claim that each of the two writes is followed by the mandated
inter-command delay fails. -/
theorem C1_counterexample :
    ¬ (writesOf (cmd_vel_callback okLink 100 1 0) = [encodeCmd 'Y' 100, encodeCmd 'X' 0] ∧
       eachWriteDelayed (cmd_vel_callback okLink 100 1 0) = true) := by
  rw [cmd_vel_trace_examples.1]
  decide

/-- Claim C1 as amended: for every velocity command with linear and angular
in -1..1 and max_speed in 0..100, the handler produces exactly two serial
writes, first the Y channel then the X channel, each carrying the scaled,
truncated-toward-zero and clamped integer; the first write is followed by
the 10 millisecond inter-command delay and the second write is not
followed by any delay; in particular send_velocity(1.0, 0.0, 100) writes
Y100 then X0 and send_velocity(-0.5, 0.5, 50) writes Y-25 then X25. -/
theorem C1_two_writes : ∀ (maxSpeed : ℤ) (lx az : ℚ),
    -1 ≤ lx → lx ≤ 1 → -1 ≤ az → az ≤ 1 → 0 ≤ maxSpeed → maxSpeed ≤ 100 →
    cmd_vel_callback okLink maxSpeed lx az =
      [Ev.write (encodeCmd 'Y' (scaled_clamped lx maxSpeed)), Ev.sleep 10,
       Ev.write (encodeCmd 'X' (scaled_clamped az maxSpeed)), Ev.log "Sent"] ∧
    writesOf (cmd_vel_callback okLink 100 1 0) = [encodeCmd 'Y' 100, encodeCmd 'X' 0] ∧
    writesOf (cmd_vel_callback okLink 50 (-(1 : ℚ)/2) ((1 : ℚ)/2)) =
      [encodeCmd 'Y' (-25), encodeCmd 'X' 25] := by
  intro ms lx az h1 h2 h3 h4 h5 h6
  refine ⟨rfl, ?_, ?_⟩
  · rw [cmd_vel_trace_examples.1]
    decide
  · rw [cmd_vel_trace_examples.2]
    decide

/-- Witness for C1 as amended, at max_speed 100, linear 1.0, angular 0.0. -/
theorem C1_two_writes_witness :
    cmd_vel_callback okLink 100 1 0 =
      [Ev.write (encodeCmd 'Y' (scaled_clamped 1 100)), Ev.sleep 10,
       Ev.write (encodeCmd 'X' (scaled_clamped 0 100)), Ev.log "Sent"] ∧
    writesOf (cmd_vel_callback okLink 100 1 0) = [encodeCmd 'Y' 100, encodeCmd 'X' 0] ∧
    writesOf (cmd_vel_callback okLink 50 (-(1 : ℚ)/2) ((1 : ℚ)/2)) =
      [encodeCmd 'Y' (-25), encodeCmd 'X' 25] :=
  C1_two_writes 100 1 0 (by decide) (by decide) (by decide) (by decide)
    (by decide) (by decide)

/-- Claim C2 names a real code bug: destroy_node does write Y0 then X0 and
then closes the handle, but the bridge main function never invokes
destroy_node on any termination path (its finally block only calls
rclpy.shutdown), so neither the stop writes nor the close of the device
handle are reached when the process is interrupted or errors out. -/
theorem C2_shutdown_unreachable :
    destroy_node true =
      [Ev.write (encodeCmd 'Y' 0), Ev.write (encodeCmd 'X' 0), Ev.close, Ev.superDestroy] ∧
    ∀ (maxSpeed : ℤ) (msgs : List (ℚ × ℚ)) (endc : SpinEnd),
      Ev.close ∉ bridge_main_events maxSpeed msgs endc ∧
      Ev.superDestroy ∉ bridge_main_events maxSpeed msgs endc := by
  refine ⟨rfl, ?_⟩
  intro ms msgs endc
  have hspin : Ev.close ∉ spin_events ms msgs ∧ Ev.superDestroy ∉ spin_events ms msgs := by
    induction msgs with
    | nil => exact ⟨by simp [spin_events], by simp [spin_events]⟩
    | cons m t ih =>
      have hfold : spin_events ms (m :: t) =
          cmd_vel_callback okLink ms m.1 m.2 ++ spin_events ms t := rfl
      constructor <;>
        (rw [hfold, List.mem_append]
         rintro (hc | hc))
      · simp [cmd_vel_callback, okLink] at hc
      · exact ih.1 hc
      · simp [cmd_vel_callback, okLink] at hc
      · exact ih.2 hc
  cases endc <;>
    constructor <;>
      (simp only [bridge_main_events, List.mem_append, List.mem_cons,
        List.not_mem_nil, bridge_init_events]
       rintro ((h | h) | h)) <;>
    simp_all

/-- Claim C6 is refuted on the ROS bridge open path: after its 2 second
settle delay the bridge never resets either serial buffer before its first
command write. -/
theorem C6_counterexample :
    Ev.resetInput ∉ bridge_init_events ∧ Ev.resetOutput ∉ bridge_init_events := by
  decide

/-- Claim C6 as amended: the keyboard UI open resets both serial buffers
right after the 2 second settle delay and before any command is sent,
while the ROS bridge open performs the settle delay but never resets
either buffer. -/
theorem C6_flush_after_settle : ∀ inWaiting : Bool,
    (∃ rest, servo_ui_init_events inWaiting =
      [Ev.openSerial, Ev.sleep 2000, Ev.resetInput, Ev.resetOutput] ++ rest) ∧
    Ev.resetInput ∉ bridge_init_events ∧ Ev.resetOutput ∉ bridge_init_events := by
  intro iw
  exact ⟨⟨_, rfl⟩, by decide, by decide⟩

/-- Claim C8 is refuted when the stop write fails during destroy_node: the
bare except swallows the error without logging anything, and because the
close call sits inside the same try block, the device handle is not
released on that path. -/
theorem C8_counterexample :
    Ev.close ∉ destroy_node false ∧ hasLog (destroy_node false) = false := by
  decide

/-- Claim C8 as amended: when the stop write fails during destroy_node the
failure is silently swallowed: it is never fatal (super destroy still
runs, no exception escapes) and the stop command is attempted exactly once
and never retried, but the failure is not logged and the device handle is
not released on that path. -/
theorem C8_silent_swallow :
    destroy_node false = [Ev.writeFail (encodeCmd 'Y' 0), Ev.superDestroy] ∧
    (destroy_node false).count (Ev.writeFail (encodeCmd 'Y' 0)) = 1 ∧
    Ev.close ∉ destroy_node false ∧ hasLog (destroy_node false) = false :=
  ⟨rfl, by decide, by decide, rfl⟩

/-- Claim C10: the key loop invariant holds at startup; from any state
satisfying it, every key press is handled with no missing key or out of
range index failure and the invariant is preserved, so the current servo
is always a key of both dicts and both lookups in send_servo_command
always succeed. -/
theorem C10_lookups_safe :
    uiInvariant uiInit ∧
    (∀ (link : SerialLink) (st : UIState) (key : Char), uiInvariant st →
      ∃ r, run_key link st key = some r ∧ uiInvariant r.1) ∧
    (∀ st : UIState, uiInvariant st →
      (servo_commands.lookup st.current_servo).isSome ∧
      (st.positions.lookup st.current_servo).isSome) := by
  refine ⟨by decide, run_key_total_inv, ?_⟩
  intro st h
  obtain ⟨hkeys, hcur, _⟩ := h
  refine ⟨servo_commands_total _ hcur, ?_⟩
  rw [lookup_isSome_iff, hkeys]
  exact hcur

/-- Witness for C10 at the initial state and the w key. -/
theorem C10_lookups_safe_witness :
    ∃ r, run_key okLink uiInit 'w' = some r ∧ uiInvariant r.1 :=
  C10_lookups_safe.2.1 okLink uiInit 'w' (by decide)

/-- Claim C4: every position-changing key press keeps all stored servo
positions in 0..100; sixty presses of the fine plus key from the initial
50 reach exactly 100 and never more (after n presses the stored value is
min 100 (50 + n)), and sixty presses of the fine minus key reach exactly 0
and never less (after n presses the stored value is max 0 (50 - n)). -/
theorem C4_clamped :
    (∀ (link : SerialLink) (st : UIState) (key : Char) (r : UIState × List Ev),
      uiInvariant st → run_key link st key = some r → inRange01 r.1.positions) ∧
    (∀ n : ℕ, n ≤ 60 → stepRunPos '+' n = some (some (min 100 (50 + (n : ℤ))))) ∧
    (∀ n : ℕ, n ≤ 60 → stepRunPos '-' n = some (some (max 0 (50 - (n : ℤ))))) := by
  refine ⟨?_, ?_, ?_⟩
  · intro link st key r h hr
    obtain ⟨r2, hr2, hinv⟩ := run_key_total_inv link st key h
    rw [hr] at hr2
    obtain rfl := Option.some.inj hr2
    exact hinv.2.2
  · intro n hn
    have H : ∀ m ∈ List.range 61, stepRunPos '+' m = some (some (min 100 (50 + (m : ℤ)))) := by
      decide
    exact H n (List.mem_range.mpr (by omega))
  · intro n hn
    have H : ∀ m ∈ List.range 61, stepRunPos '-' m = some (some (max 0 (50 - (m : ℤ)))) := by
      decide
    exact H n (List.mem_range.mpr (by omega))

/-- Witness for C4 at sixty presses of the fine plus key. -/
theorem C4_clamped_witness :
    stepRunPos '+' 60 = some (some (min 100 (50 + ((60 : ℕ) : ℤ)))) :=
  C4_clamped.2.1 60 (by decide)

/-- Claim C3: when the link raises a SerialError during a send, the send
returns the non-fatal commandFailed result instead of propagating, and the
position stored by the surrounding key handler remains the newly intended
clamped value; nothing rolls it back. -/
theorem C3_no_rollback :
    (∀ (ps : Positions) (name : String) (c : Char) (p : ℤ),
      servo_commands.lookup name = some c → ps.lookup name = some p →
      send_servo_command failLink ps name =
        some ([Ev.resetInput, Ev.log "Sending", Ev.writeFail (encodeCmd c p),
               Ev.logError "Serial error"], CmdResult.commandFailed)) ∧
    (∀ (st : UIState) (p : ℤ), uiInvariant st →
      st.positions.lookup st.current_servo = some p →
      ∃ evs, run_key failLink st 'w' =
        some (⟨setKey st.positions st.current_servo (min 100 (p + step_size)),
               st.current_servo⟩, evs)) := by
  constructor
  · intro ps name c p hc hp
    unfold send_servo_command
    rw [hc, hp]
    rfl
  · intro st p h hp
    obtain ⟨hkeys, hcur, hrange⟩ := h
    have hcs : (servo_commands.lookup st.current_servo).isSome :=
      servo_commands_total _ hcur
    have hm : st.current_servo ∈ st.positions.map Prod.fst := by
      rw [hkeys]
      exact hcur
    unfold run_key
    rw [if_neg (by decide : ¬ ('w' ∈ ['1', '2', '3', '4', '5', '6', '7'])), if_pos rfl, hp]
    show ∃ evs, sendAfterSet failLink st (min 100 (p + step_size)) = some _
    exact sendAfterSet_eq failLink st (min 100 (p + step_size)) hcs hm

/-- Witness for C3 at the initial state: the failing send reports
commandFailed and the w key stores the newly intended value 55. -/
theorem C3_no_rollback_witness :
    send_servo_command failLink initPositions "head_rotation" =
      some ([Ev.resetInput, Ev.log "Sending", Ev.writeFail (encodeCmd 'G' 50),
             Ev.logError "Serial error"], CmdResult.commandFailed) ∧
    ∃ evs, run_key failLink uiInit 'w' =
      some (⟨setKey uiInit.positions uiInit.current_servo (min 100 (50 + step_size)),
             uiInit.current_servo⟩, evs) :=
  ⟨C3_no_rollback.1 initPositions "head_rotation" 'G' 50 (by decide) (by decide),
   C3_no_rollback.2 uiInit 50 (by decide) (by decide)⟩

set_option maxHeartbeats 2000000 in
/-- Claim C5: from any prior positions, applying the home preset on a
healthy link issues exactly one serial write per actuator, in the declared
order of the actuator set, each carrying the home table's exact value, and
afterwards the stored position of every actuator equals the home table. -/
theorem C5_home_preset : ∀ (link : SerialLink) (a b c d e f g : ℤ),
    link.writeOk = true →
    ∃ evs, home_position link
        [("head_rotation", a), ("neck_top", b), ("neck_bottom", c), ("eye_right", d),
         ("eye_left", e), ("arm_left", f), ("arm_right", g)] =
      some (home_positions, evs) ∧
    writesOf evs =
      [encodeCmd 'G' 50, encodeCmd 'T' 80, encodeCmd 'B' 20, encodeCmd 'U' 40,
       encodeCmd 'E' 40, encodeCmd 'L' 50, encodeCmd 'R' 50] := by
  intro link a b c d e f g hw
  obtain ⟨wo, iw⟩ := link
  obtain rfl : wo = true := hw
  cases iw <;> exact ⟨_, rfl, rfl⟩

/-- Witness for C5 starting from the all-50 initial positions. -/
theorem C5_home_preset_witness :
    ∃ evs, home_position okLink
        [("head_rotation", 50), ("neck_top", 50), ("neck_bottom", 50), ("eye_right", 50),
         ("eye_left", 50), ("arm_left", 50), ("arm_right", 50)] =
      some (home_positions, evs) ∧
    writesOf evs =
      [encodeCmd 'G' 50, encodeCmd 'T' 80, encodeCmd 'B' 20, encodeCmd 'U' 40,
       encodeCmd 'E' 40, encodeCmd 'L' 50, encodeCmd 'R' 50] :=
  C5_home_preset okLink 50 50 50 50 50 50 50 rfl
